import Mathlib

/-!
Verification of the reciprocal-review pairing and risk-scoring engine of the
ethos-r4r repository.

The embedding translates the engine from the source:

* interactive scorer and pairer: src/islands/ReviewAnalysis.tsx
  (the computed values r4rScoreDetails, stats and reviewPairs);
* batch scorer: src/routes/api/calculate-r4r-batch.ts (calculateUserR4rScore).

Modelling conventions:

* JavaScript numbers are modelled as rationals; every arithmetic step of the
  engine is exact decimal/ratio arithmetic, so ℚ represents it faithfully.
* A record's timestamp is represented by the instant the source obtains from
  parseTimestamp(timestamp).getTime(), in milliseconds: an Option ℚ whose
  none stands for an unparseable timestamp (an invalid Date, i.e. a NaN
  time value).  Every arithmetic combination of NaN is NaN and every
  comparison with NaN is false; the Option-matching in the definitions below
  reproduces exactly that propagation (none combines to none, and a
  comparison on none is false).
* The rating of a review is data?.score || content?.rating in the source;
  both fields are Option Rating here and the JavaScript fallback is orElse
  (the rating strings are non-empty, hence truthy, so || is first-defined).
* Fields of the source records that the engine never reads (id, avatar,
  numeric profile score, userkey, review text) are omitted; usernames are the
  join keys and are kept as strings.  The display-only r4rScore annotation a
  pair later receives from the leaderboard cache is an external collaborator
  and is not part of the engine.
* Map<string, ReviewPair> with its insertion order is modelled as an
  association list; Map.set on a fresh key appends, Map.get/.has is lookup,
  and the in-place mutation of a looked-up entry is a keyed replacement.
* Array.prototype.sort with the source's comparator is List.mergeSort with
  the corresponding Boolean relation; name.localeCompare is modelled as the
  string order (the claims settled here are invariant under the comparator).
* Date.now() is an explicit parameter now (milliseconds).
-/

/-- Rating enum: the values of data.score / content.rating in the source;
a missing or unrecognized rating is represented by none at use sites. -/
inductive Rating
  | positive
  | negative
  | neutral
deriving DecidableEq, Repr

/-- One review event, as the engine reads it (EthosActivity in
ReviewAnalysis.tsx; the same fields carry the batch route's records, whose
timestamp field is named createdAt). -/
structure EthosActivity where
  authorUsername : String
  authorName : String
  subjectUsername : String
  subjectName : String
  dataScore : Option Rating
  contentRating : Option Rating
  archived : Bool
  time : Option ℚ
deriving DecidableEq, Repr

/-- Effective rating of a record: data?.score || content?.rating. -/
def ratingOf (a : EthosActivity) : Option Rating :=
  a.dataScore.orElse (fun _ => a.contentRating)

/-- received.find(r => r.author.username === givenReview.subject.username). -/
def findMatch (g : EthosActivity) (received : List EthosActivity) :
    Option EthosActivity :=
  received.find? (fun r => r.authorUsername == g.subjectUsername)

/-- The reciprocal test the scorer applies to one given review: a first
matching received review exists and both effective ratings are positive
(ReviewAnalysis.tsx lines 81-94). -/
def isReciprocalMatch (g : EthosActivity) (received : List EthosActivity) :
    Bool :=
  match findMatch g received with
  | some m =>
      ratingOf g == some Rating.positive && ratingOf m == some Rating.positive
  | none => false

/-- Math.abs(givenDate.getTime() - receivedDate.getTime()) / (1000*60*60*24):
the absolute gap in days; none (NaN) when either instant is invalid. -/
def timeDiffDays (t1 t2 : Option ℚ) : Option ℚ :=
  match t1, t2 with
  | some a, some b => some (|a - b| / 86400000)
  | _, _ => none

/-- The quick-reciprocation test of the interactive scorer
(ReviewAnalysis.tsx lines 105-124): the matched pair is positive/positive
and timeDiff < 0.0208 days; a NaN gap compares false. -/
def isQuickMatch (g : EthosActivity) (received : List EthosActivity) : Bool :=
  match findMatch g received with
  | some m =>
      ratingOf g == some Rating.positive &&
        ratingOf m == some Rating.positive &&
          (match timeDiffDays g.time m.time with
           | some d => decide (d < 0.0208)
           | none => false)
  | none => false

/-- reciprocalCount: the given reviews whose first matching received review
makes a positive/positive pair (ReviewAnalysis.tsx lines 79-94). -/
def reciprocalCount (given received : List EthosActivity) : ℕ :=
  (given.filter (fun g => isReciprocalMatch g received)).length

/-- quickReciprocations: the given reviews whose positive/positive match is
quicker than 0.0208 days (ReviewAnalysis.tsx lines 103-124). -/
def quickCount (given received : List EthosActivity) : ℕ :=
  (given.filter (fun g => isQuickMatch g received)).length

/-- One binary step of variadic Math.min: NaN (none) absorbs. -/
def minStep (acc s : Option ℚ) : Option ℚ :=
  match acc, s with
  | some a, some b => some (min a b)
  | _, _ => none

/-- Math.min over a list of instants: NaN-poisoning, so none when any entry
is none; none on the empty list (the source guards it by length > 0). -/
def minTimes (l : List (Option ℚ)) : Option ℚ :=
  match l with
  | [] => none
  | t :: rest => List.foldl minStep t rest

/-- Math.min(...timestamps) over all given+received records
(ReviewAnalysis.tsx lines 151-154). -/
def earliestTime (l : List EthosActivity) : Option ℚ :=
  minTimes (l.map (fun a => a.time))

/-- Math.round: round half toward positive infinity. -/
def jsRound (q : ℚ) : ℤ :=
  ⌊q + 1/2⌋

/-- Volume multiplier tiers (ReviewAnalysis.tsx lines 131-143). -/
def volumeMultiplierOf (reciprocal : ℕ) : ℚ :=
  if reciprocal ≥ 50 then 1.2
  else if reciprocal ≥ 20 then 1.15
  else if reciprocal ≥ 10 then 1.05
  else 1

/-- Account-age multiplier tiers (ReviewAnalysis.tsx lines 146-170); a NaN
accountAgeDays/reviewsPerDay (none) fails every comparison, leaving 1. -/
def accountAgeMultiplierOf (ageDays perDay : Option ℚ) : ℚ :=
  match ageDays, perDay with
  | some a, some rpd =>
      if rpd > 10 ∧ a < 30 then 1.4
      else if rpd > 5 ∧ a < 60 then 1.25
      else if rpd > 2 ∧ a < 90 then 1.1
      else 1
  | _, _ => 1

/-- Time-penalty tiers (ReviewAnalysis.tsx lines 176-195). -/
def timePenaltyOf (frac : ℚ) (quick : ℕ) : ℚ :=
  if frac ≥ 0.8 ∧ quick ≥ 3 then 10 + frac * 5
  else if frac ≥ 0.6 ∧ quick ≥ 3 then 8 + frac * 4
  else if frac ≥ 0.4 ∧ quick ≥ 2 then 5 + frac * 3
  else if frac ≥ 0.2 ∧ quick ≥ 2 then 2 + frac * 2
  else 0

/-- accountAgeDays = (Date.now() - earliestReview) / (1000*60*60*24); it
stays 0 when there are no reviews, and is NaN (none) when some timestamp is
unparseable (ReviewAnalysis.tsx lines 148-155). -/
def accountAgeDaysOf (l : List EthosActivity) (now : ℚ) : Option ℚ :=
  if l.length = 0 then some 0
  else (earliestTime l).map (fun e => (now - e) / 86400000)

/-- reviewsPerDay = totalReviews / Math.max(accountAgeDays, 1); it stays 0
when there are no reviews and is NaN when accountAgeDays is NaN
(ReviewAnalysis.tsx lines 149-158). -/
def reviewsPerDayOf (l : List EthosActivity) (total : ℕ) (now : ℚ) :
    Option ℚ :=
  if l.length = 0 then some 0
  else (accountAgeDaysOf l now).map (fun a => (total : ℚ) / max a 1)

/-- The score breakdown the interactive scorer returns (the *Reason display
strings, recomputed from the same numbers, are omitted). -/
structure ScoreDetails where
  baseScore : ℚ
  volumeMultiplier : ℚ
  accountAgeMultiplier : ℚ
  accountAgeDays : Option ℚ
  reviewsPerDay : Option ℚ
  scoreAfterMultipliers : ℚ
  timePenalty : ℚ
  quickReciprocations : ℕ
  suspiciousFrac : ℚ
  finalScore : ℤ
deriving DecidableEq, Repr

/-- The all-zero breakdown returned when no received reviews remain
(ReviewAnalysis.tsx lines 216-230). -/
def zeroScoreDetails : ScoreDetails :=
  { baseScore := 0
    volumeMultiplier := 1
    accountAgeMultiplier := 1
    accountAgeDays := some 0
    reviewsPerDay := some 0
    scoreAfterMultipliers := 0
    timePenalty := 0
    quickReciprocations := 0
    suspiciousFrac := 0
    finalScore := 0 }

/-- baseScore = Math.min((reciprocalCount / received.length) * 100, 65)
(ReviewAnalysis.tsx line 100). -/
def baseScoreOf (rc n : ℕ) : ℚ :=
  min ((rc : ℚ) / (n : ℚ) * 100) 65

/-- suspiciousRatio = reciprocalCount > 0 ? quick / reciprocalCount : 0
(ReviewAnalysis.tsx line 127). -/
def suspiciousFracOf (quick rc : ℕ) : ℚ :=
  if 0 < rc then (quick : ℚ) / (rc : ℚ) else 0

/-- The account-age multiplier of one filtered given/received input pair. -/
def ageMultOf (given received : List EthosActivity) (now : ℚ) : ℚ :=
  accountAgeMultiplierOf (accountAgeDaysOf (given ++ received) now)
    (reviewsPerDayOf (given ++ received) (given.length + received.length) now)

/-- The time penalty of one filtered given/received input pair. -/
def penaltyOf (given received : List EthosActivity) : ℚ :=
  timePenaltyOf
    (suspiciousFracOf (quickCount given received) (reciprocalCount given received))
    (quickCount given received)

/-- adjustedScore = baseScore * volumeMultiplier * accountAgeMultiplier +
timePenalty (ReviewAnalysis.tsx lines 173 and 197). -/
def adjustedScoreOf (given received : List EthosActivity) (now : ℚ) : ℚ :=
  baseScoreOf (reciprocalCount given received) received.length *
      volumeMultiplierOf (reciprocalCount given received) * ageMultOf given received now +
    penaltyOf given received

/-- The breakdown returned on the received.length > 0 branch
(ReviewAnalysis.tsx lines 98-215), on already-filtered inputs. -/
def mainScoreDetails (given received : List EthosActivity) (now : ℚ) :
    ScoreDetails :=
  { baseScore := baseScoreOf (reciprocalCount given received) received.length
    volumeMultiplier := volumeMultiplierOf (reciprocalCount given received)
    accountAgeMultiplier := ageMultOf given received now
    accountAgeDays := accountAgeDaysOf (given ++ received) now
    reviewsPerDay :=
      reviewsPerDayOf (given ++ received) (given.length + received.length) now
    scoreAfterMultipliers := adjustedScoreOf given received now - penaltyOf given received
    timePenalty := penaltyOf given received
    quickReciprocations := quickCount given received
    suspiciousFrac :=
      suspiciousFracOf (quickCount given received) (reciprocalCount given received)
    finalScore := min (jsRound (adjustedScoreOf given received now)) 100 }

/-- The interactive r4rScoreDetails computation (ReviewAnalysis.tsx lines
74-231).  suspiciousFrac is the source's suspiciousRatio field. -/
def r4rScoreDetails (givenAll receivedAll : List EthosActivity) (now : ℚ) :
    ScoreDetails :=
  if (receivedAll.filter (fun r => !r.archived)).length = 0 then zeroScoreDetails
  else
    mainScoreDetails (givenAll.filter (fun r => !r.archived))
      (receivedAll.filter (fun r => !r.archived)) now

/-- Risk tiers derived from the final score. -/
inductive RiskLevel
  | low
  | moderate
  | high
deriving DecidableEq, Repr

/-- HIGH at ≥ 70, MODERATE at ≥ 40, else LOW (ReviewAnalysis.tsx lines
697-729, calculate-r4r-batch.ts lines 199-201). -/
def riskLevelOf (score : ℤ) : RiskLevel :=
  if score ≥ 70 then RiskLevel.high
  else if score ≥ 40 then RiskLevel.moderate
  else RiskLevel.low

/-- Absolute time gap in hours used by the batch route,
(givenTime - receivedTime) / (1000*60*60). -/
def batchTimeDiffHours (t1 t2 : Option ℚ) : Option ℚ :=
  match t1, t2 with
  | some a, some b => some (|a - b| / 3600000)
  | _, _ => none

/-- The quick-reciprocation test of the batch route
(calculate-r4r-batch.ts lines 131-154): any first matching received review,
ratings ignored, counted quick when the gap is at most 24 hours. -/
def batchIsQuick (g : EthosActivity) (received : List EthosActivity) : Bool :=
  match findMatch g received with
  | some m =>
      match batchTimeDiffHours g.time m.time with
      | some d => decide (d ≤ 24)
      | none => false
  | none => false

/-- quickReciprocations of the batch route: given reviews with a matching
received review no more than 24 hours apart (calculate-r4r-batch.ts lines
115-159). -/
def batchQuickCount (givenAll receivedAll : List EthosActivity) : ℕ :=
  let given := givenAll.filter (fun r => !r.archived)
  let received := receivedAll.filter (fun r => !r.archived)
  (given.filter (fun g => batchIsQuick g received)).length

/-- One counterpart relationship (ReviewPair in ReviewAnalysis.tsx; the
display-only userkey/avatar/score/r4rScore fields are omitted).
timeDifference is none when unset or NaN: every consumer guards it with
(!== undefined && < bound), which rejects both identically. -/
structure ReviewPair where
  username : String
  name : String
  givenReview : Option EthosActivity
  receivedReview : Option EthosActivity
  isReciprocal : Bool
  timeDifference : Option ℚ
deriving DecidableEq, Repr

/-- The entry created for a given review's counterpart
(ReviewAnalysis.tsx lines 289-313). -/
def mkGivenPair (g : EthosActivity) : ReviewPair :=
  { username := g.subjectUsername
    name := g.subjectName
    givenReview := some g
    receivedReview := none
    isReciprocal := false
    timeDifference := none }

/-- The entry created for a received review whose author has no entry yet
(ReviewAnalysis.tsx lines 347-364). -/
def mkReceivedPair (r : EthosActivity) : ReviewPair :=
  { username := r.authorUsername
    name := r.authorName
    givenReview := none
    receivedReview := some r
    isReciprocal := false
    timeDifference := none }

/-- The in-place update of an existing entry by a received review
(ReviewAnalysis.tsx lines 319-346): overwrite receivedReview, recompute
isReciprocal from the stored given review and this received review, and
recompute timeDifference when a given review is present. -/
def updateReceived (p : ReviewPair) (r : EthosActivity) : ReviewPair :=
  { p with
    receivedReview := some r
    isReciprocal :=
      p.givenReview.bind ratingOf == some Rating.positive &&
        ratingOf r == some Rating.positive
    timeDifference :=
      match p.givenReview with
      | some g => timeDiffDays g.time r.time
      | none => p.timeDifference }

/-- Phase 1 step: userMap.set(subject.username, mkGivenPair) guarded by
!userMap.has (ReviewAnalysis.tsx lines 289-313). -/
def insertGiven (m : List (String × ReviewPair)) (g : EthosActivity) :
    List (String × ReviewPair) :=
  if (m.lookup g.subjectUsername).isSome then m
  else m ++ [(g.subjectUsername, mkGivenPair g)]

/-- Phase 2 step: update the existing entry for author.username, else insert
a received-only entry (ReviewAnalysis.tsx lines 316-365). -/
def insertReceived (m : List (String × ReviewPair)) (r : EthosActivity) :
    List (String × ReviewPair) :=
  if (m.lookup r.authorUsername).isSome then
    m.map (fun kp =>
      if kp.1 == r.authorUsername then (kp.1, updateReceived kp.2 r) else kp)
  else m ++ [(r.authorUsername, mkReceivedPair r)]

/-- The userMap after both passes (ReviewAnalysis.tsx lines 280-365). -/
def pairMap (givenAll receivedAll : List EthosActivity) :
    List (String × ReviewPair) :=
  List.foldl insertReceived
    (List.foldl insertGiven [] (givenAll.filter (fun r => !r.archived)))
    (receivedAll.filter (fun r => !r.archived))

/-- The sort comparator (ReviewAnalysis.tsx lines 370-375): reciprocal pairs
first, then by name (localeCompare modelled as the string order). -/
def pairLe (a b : ReviewPair) : Bool :=
  if a.isReciprocal && !b.isReciprocal then true
  else if !a.isReciprocal && b.isReciprocal then false
  else decide (a.name ≤ b.name)

/-- The reviewPairs computed value: map values, sorted
(ReviewAnalysis.tsx lines 367-376). -/
def reviewPairs (givenAll receivedAll : List EthosActivity) :
    List ReviewPair :=
  List.mergeSort ((pairMap givenAll receivedAll).map Prod.snd) pairLe

/-! Basic facts about the scorer's arithmetic stages. -/

theorem jsRound_nonneg {q : ℚ} (hq : 0 ≤ q) : 0 ≤ jsRound q := by
  unfold jsRound
  exact Int.floor_nonneg.mpr (by linarith)

theorem jsRound_le_jsRound {a b : ℚ} (h : a ≤ b) : jsRound a ≤ jsRound b := by
  unfold jsRound
  exact Int.floor_le_floor (by linarith)

theorem jsRound_hundred : jsRound 100 = 100 := by
  unfold jsRound
  norm_num

theorem min_jsRound_hundred (q : ℚ) :
    min (jsRound q) 100 = jsRound (min q 100) := by
  rcases le_total q 100 with h | h
  · rw [min_eq_left h, min_eq_left]
    calc jsRound q ≤ jsRound 100 := jsRound_le_jsRound h
    _ = 100 := jsRound_hundred
  · rw [min_eq_right h, min_eq_right, jsRound_hundred]
    calc (100 : ℤ) = jsRound 100 := jsRound_hundred.symm
    _ ≤ jsRound q := jsRound_le_jsRound h

theorem volumeMultiplierOf_ge_one (n : ℕ) : 1 ≤ volumeMultiplierOf n := by
  unfold volumeMultiplierOf
  split_ifs <;> norm_num

theorem accountAgeMultiplierOf_ge_one (a p : Option ℚ) :
    1 ≤ accountAgeMultiplierOf a p := by
  unfold accountAgeMultiplierOf
  rcases a with _ | a <;> rcases p with _ | p <;> simp <;> split_ifs <;> norm_num

theorem timePenaltyOf_nonneg {f : ℚ} (hf : 0 ≤ f) (q : ℕ) :
    0 ≤ timePenaltyOf f q := by
  unfold timePenaltyOf
  split_ifs <;> linarith

theorem timePenaltyOf_le_fifteen {f : ℚ} (hf0 : 0 ≤ f) (hf1 : f ≤ 1) (q : ℕ) :
    timePenaltyOf f q ≤ 15 := by
  unfold timePenaltyOf
  split_ifs <;> linarith

theorem isQuickMatch_imp (g : EthosActivity) (received : List EthosActivity)
    (h : isQuickMatch g received = true) : isReciprocalMatch g received = true := by
  unfold isQuickMatch at h
  unfold isReciprocalMatch
  cases hf : findMatch g received with
  | none => rw [hf] at h; exact absurd h (by simp)
  | some m =>
      rw [hf] at h
      simp only [Bool.and_eq_true] at h ⊢
      exact ⟨h.1.1, h.1.2⟩

theorem quickCount_le_reciprocalCount (given received : List EthosActivity) :
    quickCount given received ≤ reciprocalCount given received := by
  unfold quickCount reciprocalCount
  rw [← List.countP_eq_length_filter, ← List.countP_eq_length_filter]
  exact List.countP_mono_left (fun g _ h => isQuickMatch_imp g received h)

/-- Nonnegativity of each scorer stage. -/
theorem baseScoreOf_nonneg (rc n : ℕ) : 0 ≤ baseScoreOf rc n :=
  le_min (by positivity) (by norm_num)

theorem suspiciousFracOf_nonneg (q rc : ℕ) : 0 ≤ suspiciousFracOf q rc := by
  unfold suspiciousFracOf
  split_ifs
  · positivity
  · norm_num

theorem suspiciousFracOf_le_one {q rc : ℕ} (h : q ≤ rc) :
    suspiciousFracOf q rc ≤ 1 := by
  unfold suspiciousFracOf
  split_ifs with hrc
  · rw [div_le_one (by exact_mod_cast hrc)]
    exact_mod_cast h
  · norm_num

theorem penaltyOf_nonneg (given received : List EthosActivity) :
    0 ≤ penaltyOf given received :=
  timePenaltyOf_nonneg (suspiciousFracOf_nonneg _ _) _

theorem penaltyOf_le_fifteen (given received : List EthosActivity) :
    penaltyOf given received ≤ 15 :=
  timePenaltyOf_le_fifteen (suspiciousFracOf_nonneg _ _)
    (suspiciousFracOf_le_one (quickCount_le_reciprocalCount given received)) _

theorem adjustedScoreOf_nonneg (given received : List EthosActivity) (now : ℚ) :
    0 ≤ adjustedScoreOf given received now := by
  unfold adjustedScoreOf
  have h1 := baseScoreOf_nonneg (reciprocalCount given received) received.length
  have h2 := volumeMultiplierOf_ge_one (reciprocalCount given received)
  have h3 : 0 ≤ ageMultOf given received now := by
    unfold ageMultOf
    linarith [accountAgeMultiplierOf_ge_one
      (accountAgeDaysOf (given ++ received) now)
      (reviewsPerDayOf (given ++ received) (given.length + received.length) now)]
  have h4 := penaltyOf_nonneg given received
  have h5 : 0 ≤ baseScoreOf (reciprocalCount given received) received.length *
      volumeMultiplierOf (reciprocalCount given received) *
      ageMultOf given received now :=
    mul_nonneg (mul_nonneg h1 (by linarith)) h3
  linarith

/-- C1.  For every pair of input activity sequences and every clock reading,
the finalScore of the interactive scorer is an integer in [0, 100] and
equals round(min(scoreAfterMultipliers + timePenalty, 100)). -/
theorem finalScore_bounds_and_formula
    (givenAll receivedAll : List EthosActivity) (now : ℚ) :
    0 ≤ (r4rScoreDetails givenAll receivedAll now).finalScore ∧
      (r4rScoreDetails givenAll receivedAll now).finalScore ≤ 100 ∧
      (r4rScoreDetails givenAll receivedAll now).finalScore =
        jsRound (min
          ((r4rScoreDetails givenAll receivedAll now).scoreAfterMultipliers +
            (r4rScoreDetails givenAll receivedAll now).timePenalty) 100) := by
  unfold r4rScoreDetails
  split
  · unfold zeroScoreDetails jsRound
    norm_num
  · simp only [mainScoreDetails]
    refine ⟨le_min (jsRound_nonneg (adjustedScoreOf_nonneg _ _ _)) (by norm_num),
      min_le_right _ _, ?_⟩
    rw [sub_add_cancel, min_jsRound_hundred]

/-- C10.  For every input and clock reading, the quick-reciprocation count
never exceeds the reciprocal count (both tally the same positive/positive
matches of the given stream), so the suspicious ratio lies in [0, 1] and the
time penalty is at most 15 = 10 + 1 * 5. -/
theorem quick_ratio_penalty_bounds
    (givenAll receivedAll : List EthosActivity) (now : ℚ) :
    (r4rScoreDetails givenAll receivedAll now).quickReciprocations ≤
        reciprocalCount (givenAll.filter (fun r => !r.archived))
          (receivedAll.filter (fun r => !r.archived)) ∧
      0 ≤ (r4rScoreDetails givenAll receivedAll now).suspiciousFrac ∧
      (r4rScoreDetails givenAll receivedAll now).suspiciousFrac ≤ 1 ∧
      (r4rScoreDetails givenAll receivedAll now).timePenalty ≤ 15 := by
  unfold r4rScoreDetails
  split
  · unfold zeroScoreDetails
    exact ⟨Nat.zero_le _, le_refl 0, by norm_num, by norm_num⟩
  · simp only [mainScoreDetails]
    exact ⟨quickCount_le_reciprocalCount _ _, suspiciousFracOf_nonneg _ _,
      suspiciousFracOf_le_one (quickCount_le_reciprocalCount _ _),
      penaltyOf_le_fifteen _ _⟩

/-- C9.  If no received review survives the archived filter, the scorer
returns the all-zero breakdown: baseScore 0, finalScore 0, risk level LOW. -/
theorem zero_received_zero_score
    (givenAll receivedAll : List EthosActivity) (now : ℚ)
    (h : (receivedAll.filter (fun r => !r.archived)).length = 0) :
    r4rScoreDetails givenAll receivedAll now = zeroScoreDetails ∧
      zeroScoreDetails.baseScore = 0 ∧ zeroScoreDetails.finalScore = 0 ∧
      riskLevelOf (r4rScoreDetails givenAll receivedAll now).finalScore =
        RiskLevel.low := by
  have h1 : r4rScoreDetails givenAll receivedAll now = zeroScoreDetails := by
    unfold r4rScoreDetails
    rw [if_pos h]
  refine ⟨h1, rfl, rfl, ?_⟩
  rw [h1]
  unfold zeroScoreDetails riskLevelOf
  norm_num

/-- Witness for C9 at the concrete empty input. -/
theorem zero_received_zero_score_witness :
    r4rScoreDetails [] [] 0 = zeroScoreDetails ∧
      zeroScoreDetails.baseScore = 0 ∧ zeroScoreDetails.finalScore = 0 ∧
      riskLevelOf (r4rScoreDetails [] [] 0).finalScore = RiskLevel.low :=
  zero_received_zero_score [] [] 0 rfl

/-! Helper facts for evaluating concrete scenarios. -/

theorem foldl_minStep_all_zero :
    ∀ (l : List (Option ℚ)), (∀ t ∈ l, t = some 0) →
      List.foldl minStep (some 0) l = some 0 := by
  intro l
  induction l with
  | nil => intro _; rfl
  | cons t rest ih =>
      intro hall
      have h1 : t = some 0 := hall t (List.mem_cons_self _ _)
      have h2 : minStep (some 0) (some 0) = some 0 := by
        show some (min (0 : ℚ) 0) = some 0
        rw [min_self]
      simp only [List.foldl_cons, h1, h2]
      exact ih (fun x hx => hall x (List.mem_cons_of_mem _ hx))

theorem minTimes_all_zero :
    ∀ (l : List (Option ℚ)), l ≠ [] → (∀ t ∈ l, t = some 0) →
      minTimes l = some 0 := by
  intro l
  cases l with
  | nil => intro h; exact absurd rfl h
  | cons t rest =>
      intro _ hall
      have h1 : t = some 0 := hall t (List.mem_cons_self _ _)
      unfold minTimes
      rw [h1]
      exact foldl_minStep_all_zero rest
        (fun x hx => hall x (List.mem_cons_of_mem _ hx))

theorem earliestTime_all_zero {l : List EthosActivity} (hne : l ≠ [])
    (h : ∀ a ∈ l, a.time = some 0) : earliestTime l = some 0 := by
  unfold earliestTime
  refine minTimes_all_zero _ (by simpa using hne) ?_
  intro t ht
  rcases List.mem_map.mp ht with ⟨a, ha, rfl⟩
  exact h a ha

theorem foldl_minStep_none_acc :
    ∀ (l : List (Option ℚ)), List.foldl minStep none l = none := by
  intro l
  induction l with
  | nil => rfl
  | cons t rest ih => simp only [List.foldl_cons, minStep, ih]

theorem foldl_minStep_of_none_mem :
    ∀ (l : List (Option ℚ)) (acc : Option ℚ), none ∈ l →
      List.foldl minStep acc l = none := by
  intro l
  induction l with
  | nil => intro acc h; cases h
  | cons t rest ih =>
      intro acc hmem
      rcases List.mem_cons.mp hmem with h | h
      · have : minStep acc t = none := by
          rw [← h]
          cases acc <;> rfl
        simp only [List.foldl_cons, this, foldl_minStep_none_acc]
      · simp only [List.foldl_cons]
        exact ih _ h

theorem minTimes_of_none :
    ∀ (l : List (Option ℚ)), none ∈ l → minTimes l = none := by
  intro l
  cases l with
  | nil => intro h; cases h
  | cons t rest =>
      intro hmem
      unfold minTimes
      rcases List.mem_cons.mp hmem with h | h
      · rw [← h]
        exact foldl_minStep_none_acc rest
      · exact foldl_minStep_of_none_mem rest t h

theorem earliestTime_of_invalid {l : List EthosActivity} {a : EthosActivity}
    (ha : a ∈ l) (h : a.time = none) : earliestTime l = none := by
  unfold earliestTime
  exact minTimes_of_none _ (List.mem_map.mpr ⟨a, ha, h⟩)

theorem isQuickMatch_eq_of_times_zero (received : List EthosActivity)
    (hr : ∀ a ∈ received, a.time = some 0) (g : EthosActivity)
    (hg : g.time = some 0) :
    isQuickMatch g received = isReciprocalMatch g received := by
  unfold isQuickMatch isReciprocalMatch
  cases hf : findMatch g received with
  | none => rfl
  | some m =>
      dsimp only
      have hm : m.time = some 0 := hr m (List.mem_of_find?_eq_some hf)
      have ht : timeDiffDays g.time m.time = some 0 := by
        rw [hg, hm]
        unfold timeDiffDays
        norm_num
      rw [ht]
      have hd : decide ((0 : ℚ) < 0.0208) = true := by norm_num
      dsimp only
      rw [hd, Bool.and_true]

theorem quickCount_eq_reciprocalCount_of_times_zero
    (given received : List EthosActivity)
    (hg : ∀ a ∈ given, a.time = some 0)
    (hr : ∀ a ∈ received, a.time = some 0) :
    quickCount given received = reciprocalCount given received := by
  unfold quickCount reciprocalCount
  congr 1
  apply List.filter_congr
  intro g hgm
  rw [isQuickMatch_eq_of_times_zero received hr g (hg g hgm)]

/-- A positive review the analysed subject gave to counterpart u at
instant t (milliseconds; none models an unparseable timestamp). -/
def givenTo (u : String) (t : Option ℚ) : EthosActivity :=
  { authorUsername := "subject"
    authorName := "Subject"
    subjectUsername := u
    subjectName := u
    dataScore := some Rating.positive
    contentRating := none
    archived := false
    time := t }

/-- A positive review the analysed subject received from counterpart u at
instant t. -/
def receivedFrom (u : String) (t : Option ℚ) : EthosActivity :=
  { authorUsername := u
    authorName := u
    subjectUsername := "subject"
    subjectName := "Subject"
    dataScore := some Rating.positive
    contentRating := none
    archived := false
    time := t }

/-- Scenario A given stream: eight positive reviews to u1..u8, all at
instant 0. -/
def scenarioAGiven : List EthosActivity :=
  [givenTo "u1" (some 0), givenTo "u2" (some 0), givenTo "u3" (some 0),
   givenTo "u4" (some 0), givenTo "u5" (some 0), givenTo "u6" (some 0),
   givenTo "u7" (some 0), givenTo "u8" (some 0)]

/-- Scenario A received stream: ten positive reviews, eight reciprocating
u1..u8 at instant 0 and two one-way ones from u9, u10. -/
def scenarioAReceived : List EthosActivity :=
  [receivedFrom "u1" (some 0), receivedFrom "u2" (some 0),
   receivedFrom "u3" (some 0), receivedFrom "u4" (some 0),
   receivedFrom "u5" (some 0), receivedFrom "u6" (some 0),
   receivedFrom "u7" (some 0), receivedFrom "u8" (some 0),
   receivedFrom "u9" (some 0), receivedFrom "u10" (some 0)]

/-- Scenario A clock: 8640000000 ms = 100 days after the earliest review,
so accountAgeDays = 100 ≥ 90 and reviewsPerDay = 18/100 ≤ 2. -/
def scenarioANow : ℚ := 8640000000

/-- C2.  Scenario A: received = 10, reciprocal = 8, all 8 reciprocal pairs
quick, earliest review 100 days before now with 0.18 reviews per day; the
scorer yields baseScore 65, volumeMultiplier 1, accountAgeMultiplier 1,
scoreAfterMultipliers 65, timePenalty 15, finalScore 80, risk HIGH. -/
theorem scenarioA_breakdown :
    (scenarioAReceived.filter (fun r => !r.archived)).length = 10 ∧
      reciprocalCount scenarioAGiven scenarioAReceived = 8 ∧
      (r4rScoreDetails scenarioAGiven scenarioAReceived
          scenarioANow).quickReciprocations = 8 ∧
      (r4rScoreDetails scenarioAGiven scenarioAReceived scenarioANow).baseScore =
        65 ∧
      (r4rScoreDetails scenarioAGiven scenarioAReceived
          scenarioANow).volumeMultiplier = 1 ∧
      (r4rScoreDetails scenarioAGiven scenarioAReceived
          scenarioANow).accountAgeMultiplier = 1 ∧
      (r4rScoreDetails scenarioAGiven scenarioAReceived
          scenarioANow).scoreAfterMultipliers = 65 ∧
      (r4rScoreDetails scenarioAGiven scenarioAReceived scenarioANow).timePenalty =
        15 ∧
      (r4rScoreDetails scenarioAGiven scenarioAReceived scenarioANow).finalScore =
        80 ∧
      riskLevelOf
          (r4rScoreDetails scenarioAGiven scenarioAReceived
            scenarioANow).finalScore =
        RiskLevel.high := by
  have hfg : scenarioAGiven.filter (fun r => !r.archived) = scenarioAGiven := rfl
  have hfr : scenarioAReceived.filter (fun r => !r.archived) = scenarioAReceived :=
    rfl
  have hmain : r4rScoreDetails scenarioAGiven scenarioAReceived scenarioANow =
      mainScoreDetails scenarioAGiven scenarioAReceived scenarioANow := by
    unfold r4rScoreDetails
    rw [hfg, hfr, if_neg (by decide)]
  have hrc : reciprocalCount scenarioAGiven scenarioAReceived = 8 := by decide
  have hzg : ∀ a ∈ scenarioAGiven, a.time = some 0 := by decide
  have hzr : ∀ a ∈ scenarioAReceived, a.time = some 0 := by decide
  have hq : quickCount scenarioAGiven scenarioAReceived = 8 := by
    rw [quickCount_eq_reciprocalCount_of_times_zero _ _ hzg hzr, hrc]
  have hall : ∀ a ∈ scenarioAGiven ++ scenarioAReceived, a.time = some 0 := by
    decide
  have hage : accountAgeDaysOf (scenarioAGiven ++ scenarioAReceived) scenarioANow =
      some 100 := by
    unfold accountAgeDaysOf
    rw [if_neg (by decide), earliestTime_all_zero (by decide) hall]
    unfold scenarioANow
    show some ((8640000000 - 0) / 86400000 : ℚ) = some 100
    norm_num
  have hpd : reviewsPerDayOf (scenarioAGiven ++ scenarioAReceived)
      (scenarioAGiven.length + scenarioAReceived.length) scenarioANow =
      some (9 / 50) := by
    unfold reviewsPerDayOf
    rw [if_neg (by decide), hage]
    show some ((18 : ℚ) / max 100 1) = some (9 / 50)
    norm_num
  have hmult : ageMultOf scenarioAGiven scenarioAReceived scenarioANow = 1 := by
    unfold ageMultOf
    rw [hage, hpd]
    unfold accountAgeMultiplierOf
    norm_num
  have hlen : scenarioAReceived.length = 10 := rfl
  have hbase : baseScoreOf (reciprocalCount scenarioAGiven scenarioAReceived)
      scenarioAReceived.length = 65 := by
    rw [hrc, hlen]
    unfold baseScoreOf
    norm_num
  have hfrac : suspiciousFracOf (quickCount scenarioAGiven scenarioAReceived)
      (reciprocalCount scenarioAGiven scenarioAReceived) = 1 := by
    rw [hq, hrc]
    unfold suspiciousFracOf
    norm_num
  have hpen : penaltyOf scenarioAGiven scenarioAReceived = 15 := by
    unfold penaltyOf
    rw [hfrac, hq]
    unfold timePenaltyOf
    norm_num
  have hvol : volumeMultiplierOf (reciprocalCount scenarioAGiven scenarioAReceived) =
      1 := by
    rw [hrc]
    unfold volumeMultiplierOf
    norm_num
  have hadj : adjustedScoreOf scenarioAGiven scenarioAReceived scenarioANow =
      80 := by
    unfold adjustedScoreOf
    rw [hbase, hvol, hmult, hpen]
    norm_num
  refine ⟨rfl, hrc, ?_, ?_, ?_, ?_, ?_, ?_, ?_, ?_⟩ <;> rw [hmain]
  · exact hq
  · exact hbase
  · exact hvol
  · exact hmult
  · show adjustedScoreOf scenarioAGiven scenarioAReceived scenarioANow -
        penaltyOf scenarioAGiven scenarioAReceived = 65
    rw [hadj, hpen]
    norm_num
  · exact hpen
  · show min (jsRound (adjustedScoreOf scenarioAGiven scenarioAReceived
        scenarioANow)) 100 = 80
    rw [hadj]
    unfold jsRound
    norm_num
  · show riskLevelOf (min (jsRound (adjustedScoreOf scenarioAGiven
        scenarioAReceived scenarioANow)) 100) = RiskLevel.high
    rw [hadj]
    have h80 : min (jsRound (80 : ℚ)) 100 = 80 := by
      unfold jsRound
      norm_num
    rw [h80]
    unfold riskLevelOf
    norm_num

/-! Single reciprocal pair scenarios, used to probe the quick threshold. -/

theorem ratingOf_givenTo (u : String) (t : Option ℚ) :
    ratingOf (givenTo u t) = some Rating.positive := rfl

theorem ratingOf_receivedFrom (u : String) (t : Option ℚ) :
    ratingOf (receivedFrom u t) = some Rating.positive := rfl

theorem findMatch_single (u : String) (tg tr : Option ℚ) :
    findMatch (givenTo u tg) [receivedFrom u tr] = some (receivedFrom u tr) := by
  simp [findMatch, givenTo, receivedFrom]

theorem quickCount_single (u : String) (tg tr : ℚ) :
    quickCount [givenTo u (some tg)] [receivedFrom u (some tr)] =
      if |tg - tr| / 86400000 < (0.0208 : ℚ) then 1 else 0 := by
  have hq : isQuickMatch (givenTo u (some tg)) [receivedFrom u (some tr)] =
      decide (|tg - tr| / 86400000 < (0.0208 : ℚ)) := by
    unfold isQuickMatch
    rw [findMatch_single]
    dsimp only
    rw [ratingOf_givenTo, ratingOf_receivedFrom]
    show (true && true &&
        match timeDiffDays (some tg) (some tr) with
        | some d => decide (d < 0.0208)
        | none => false) = decide (|tg - tr| / 86400000 < (0.0208 : ℚ))
    unfold timeDiffDays
    simp
  unfold quickCount
  by_cases h : |tg - tr| / 86400000 < (0.0208 : ℚ)
  · rw [if_pos h]
    simp [hq, h]
  · rw [if_neg h]
    simp [hq, h]

theorem reciprocalCount_single (u : String) (tg tr : Option ℚ) :
    reciprocalCount [givenTo u tg] [receivedFrom u tr] = 1 := by
  have hr : isReciprocalMatch (givenTo u tg) [receivedFrom u tr] = true := by
    unfold isReciprocalMatch
    rw [findMatch_single]
    dsimp only
    rw [ratingOf_givenTo, ratingOf_receivedFrom]
    simp
  unfold reciprocalCount
  simp [hr]

theorem r4rScoreDetails_single_main (u : String) (tg tr : Option ℚ) (now : ℚ) :
    r4rScoreDetails [givenTo u tg] [receivedFrom u tr] now =
      mainScoreDetails [givenTo u tg] [receivedFrom u tr] now := by
  have hfg : (List.filter (fun r => !r.archived) [givenTo u tg]) =
      [givenTo u tg] := by
    simp [givenTo]
  have hfr : (List.filter (fun r => !r.archived) [receivedFrom u tr]) =
      [receivedFrom u tr] := by
    simp [receivedFrom]
  unfold r4rScoreDetails
  rw [hfg, hfr, if_neg (by simp)]

/-- C4, counterexample.  A reciprocal pair whose timestamps are exactly
0.0208 days apart (1797120 ms = 13/625 day, which is under 1/48 day) is not
counted quick by the scorer, so the classifier is not the predicate
timeDifferenceDays < 1/48 claimed by the specification. -/
theorem quick_threshold_counterexample :
    reciprocalCount [givenTo "cp" (some 0)] [receivedFrom "cp" (some 1797120)] =
        1 ∧
      timeDiffDays (some 0) (some 1797120) = some (13 / 625) ∧
      (13 / 625 : ℚ) < 1 / 48 ∧
      (r4rScoreDetails [givenTo "cp" (some 0)]
          [receivedFrom "cp" (some 1797120)] 0).quickReciprocations = 0 := by
  refine ⟨reciprocalCount_single _ _ _, ?_, by norm_num, ?_⟩
  · unfold timeDiffDays
    norm_num
  · rw [r4rScoreDetails_single_main]
    show quickCount [givenTo "cp" (some 0)] [receivedFrom "cp" (some 1797120)] = 0
    rw [quickCount_single, if_neg]
    norm_num

/-- C4, amended.  The interactive scorer counts a reciprocal pair quick
exactly when its gap is under 0.0208 days = 13/625 day (29.952 minutes), a
constant strictly below the specified 1/48 day; a gap of exactly 1/48 day
(1800000 ms) is still not quick. -/
theorem quick_threshold_amended (tg tr now : ℚ) :
    ((r4rScoreDetails [givenTo "cp" (some tg)] [receivedFrom "cp" (some tr)]
          now).quickReciprocations =
        if |tg - tr| / 86400000 < (13 / 625 : ℚ) then 1 else 0) ∧
      (0.0208 : ℚ) = 13 / 625 ∧
      (13 / 625 : ℚ) < 1 / 48 ∧
      (r4rScoreDetails [givenTo "cp" (some 0)] [receivedFrom "cp" (some 1800000)]
          now).quickReciprocations = 0 := by
  refine ⟨?_, by norm_num, by norm_num, ?_⟩
  · rw [r4rScoreDetails_single_main]
    show quickCount [givenTo "cp" (some tg)] [receivedFrom "cp" (some tr)] = _
    rw [quickCount_single]
    norm_num
  · rw [r4rScoreDetails_single_main]
    show quickCount [givenTo "cp" (some 0)] [receivedFrom "cp" (some 1800000)] = 0
    rw [quickCount_single, if_neg]
    norm_num

theorem batchQuickCount_single (u : String) (tg tr : ℚ) :
    batchQuickCount [givenTo u (some tg)] [receivedFrom u (some tr)] =
      if |tg - tr| / 3600000 ≤ (24 : ℚ) then 1 else 0 := by
  have hfg : (List.filter (fun r => !r.archived) [givenTo u (some tg)]) =
      [givenTo u (some tg)] := by
    simp [givenTo]
  have hfr : (List.filter (fun r => !r.archived) [receivedFrom u (some tr)]) =
      [receivedFrom u (some tr)] := by
    simp [receivedFrom]
  unfold batchQuickCount
  rw [hfg, hfr]
  have hq : batchIsQuick (givenTo u (some tg)) [receivedFrom u (some tr)] =
      decide (|tg - tr| / 3600000 ≤ (24 : ℚ)) := by
    unfold batchIsQuick
    rw [findMatch_single]
    show (match batchTimeDiffHours (some tg) (some tr) with
        | some d => decide (d ≤ 24)
        | none => false) = decide (|tg - tr| / 3600000 ≤ (24 : ℚ))
    unfold batchTimeDiffHours
    simp
  by_cases h : |tg - tr| / 3600000 ≤ (24 : ℚ)
  · rw [if_pos h]
    simp [hq, h]
  · rw [if_neg h]
    simp [hq, h]

/-- C5.  The interactive scorer and the batch calculator disagree on the
same reciprocal pair one hour apart: the interactive threshold is
strict < 0.0208 day (about 30 minutes) while the batch route uses ≤ 24
hours, although its comment claims the same algorithm. -/
theorem interactive_batch_quick_disagree :
    reciprocalCount [givenTo "cp" (some 0)] [receivedFrom "cp" (some 3600000)] =
        1 ∧
      (r4rScoreDetails [givenTo "cp" (some 0)]
          [receivedFrom "cp" (some 3600000)] 0).quickReciprocations = 0 ∧
      batchQuickCount [givenTo "cp" (some 0)] [receivedFrom "cp" (some 3600000)] =
        1 := by
  refine ⟨reciprocalCount_single _ _ _, ?_, ?_⟩
  · rw [r4rScoreDetails_single_main]
    show quickCount [givenTo "cp" (some 0)] [receivedFrom "cp" (some 3600000)] = 0
    rw [quickCount_single, if_neg]
    norm_num
  · rw [batchQuickCount_single, if_pos]
    norm_num

/-- Six positive given reviews to u1..u6, all at instant 0. -/
def sixGiven : List EthosActivity :=
  [givenTo "u1" (some 0), givenTo "u2" (some 0), givenTo "u3" (some 0),
   givenTo "u4" (some 0), givenTo "u5" (some 0), givenTo "u6" (some 0)]

/-- Six positive received reviews from u1..u6, all at instant 0. -/
def sixReceived : List EthosActivity :=
  [receivedFrom "u1" (some 0), receivedFrom "u2" (some 0),
   receivedFrom "u3" (some 0), receivedFrom "u4" (some 0),
   receivedFrom "u5" (some 0), receivedFrom "u6" (some 0)]

theorem timeDiffDays_none_left (t : Option ℚ) : timeDiffDays none t = none := by
  cases t <;> rfl

/-- A given record with an unparseable timestamp is never counted quick. -/
theorem isQuickMatch_of_invalid_time {bad : EthosActivity}
    (htime : bad.time = none) (rcv : List EthosActivity) :
    isQuickMatch bad rcv = false := by
  unfold isQuickMatch
  cases hf : findMatch bad rcv with
  | none => rfl
  | some m =>
      dsimp only
      rw [htime, timeDiffDays_none_left]
      dsimp only
      rw [Bool.and_false]

/-- C7, amended.  A record with an unparseable timestamp still passes the
archived filter into the given total and is never counted as a quick
reciprocation, but it is not excluded from the account-age estimate: it
poisons the earliest-timestamp Math.min to NaN, which forces
accountAgeMultiplier to 1 regardless of every other record. -/
theorem invalid_timestamp_behavior
    (givenAll receivedAll rcv : List EthosActivity) (now : ℚ)
    (bad : EthosActivity) (hmem : bad ∈ givenAll)
    (harch : bad.archived = false) (htime : bad.time = none) :
    bad ∈ givenAll.filter (fun r => !r.archived) ∧
      isQuickMatch bad rcv = false ∧
      (r4rScoreDetails givenAll receivedAll now).accountAgeMultiplier = 1 := by
  have hmemf : bad ∈ givenAll.filter (fun r => !r.archived) :=
    List.mem_filter.mpr ⟨hmem, by rw [harch]; rfl⟩
  refine ⟨hmemf, isQuickMatch_of_invalid_time htime rcv, ?_⟩
  unfold r4rScoreDetails
  split
  · rfl
  · simp only [mainScoreDetails]
    unfold ageMultOf
    have hmemall : bad ∈ givenAll.filter (fun r => !r.archived) ++
        receivedAll.filter (fun r => !r.archived) :=
      List.mem_append_left _ hmemf
    have hearliest : earliestTime (givenAll.filter (fun r => !r.archived) ++
        receivedAll.filter (fun r => !r.archived)) = none :=
      earliestTime_of_invalid hmemall htime
    have hne : (givenAll.filter (fun r => !r.archived) ++
        receivedAll.filter (fun r => !r.archived)).length ≠ 0 := by
      intro h0
      rw [List.length_eq_zero] at h0
      rw [h0] at hmemall
      cases hmemall
    have hage : accountAgeDaysOf (givenAll.filter (fun r => !r.archived) ++
        receivedAll.filter (fun r => !r.archived)) now = none := by
      unfold accountAgeDaysOf
      rw [if_neg hne, hearliest]
      rfl
    have hpd : reviewsPerDayOf (givenAll.filter (fun r => !r.archived) ++
        receivedAll.filter (fun r => !r.archived))
        ((givenAll.filter (fun r => !r.archived)).length +
          (receivedAll.filter (fun r => !r.archived)).length) now = none := by
      unfold reviewsPerDayOf
      rw [if_neg hne, hage]
      rfl
    rw [hage, hpd]
    rfl

/-- Witness for the amended C7 at a concrete input: a seventh given review
whose timestamp does not parse. -/
theorem invalid_timestamp_behavior_witness :
    givenTo "u7" none ∈
        (sixGiven ++ [givenTo "u7" none]).filter (fun r => !r.archived) ∧
      isQuickMatch (givenTo "u7" none) sixReceived = false ∧
      (r4rScoreDetails (sixGiven ++ [givenTo "u7" none]) sixReceived
          86400000).accountAgeMultiplier = 1 :=
  invalid_timestamp_behavior (sixGiven ++ [givenTo "u7" none]) sixReceived
    sixReceived 86400000 (givenTo "u7" none) (by decide) rfl rfl

/-- C7, counterexample.  Two inputs identical except that the seventh given
review's timestamp is parseable (instant 0, equal to the earliest review) in
one and unparseable in the other: the account-age estimate is not preserved
— the multiplier drops from 1.4 to 1 — so the unparseable record is *not*
excluded from the account-age estimate as the claim states. -/
theorem invalid_timestamp_poisons_account_age :
    (r4rScoreDetails (sixGiven ++ [givenTo "u7" (some 0)]) sixReceived
          86400000).accountAgeMultiplier = 1.4 ∧
      (r4rScoreDetails (sixGiven ++ [givenTo "u7" none]) sixReceived
          86400000).accountAgeMultiplier = 1 ∧
      (r4rScoreDetails (sixGiven ++ [givenTo "u7" none]) sixReceived
          86400000).accountAgeDays = none := by
  have hbad := invalid_timestamp_behavior (sixGiven ++ [givenTo "u7" none])
    sixReceived [] 86400000 (givenTo "u7" none) (by decide) rfl rfl
  refine ⟨?_, hbad.2.2, ?_⟩
  · have hfg : (sixGiven ++ [givenTo "u7" (some 0)]).filter
        (fun r => !r.archived) = sixGiven ++ [givenTo "u7" (some 0)] := rfl
    have hfr : sixReceived.filter (fun r => !r.archived) = sixReceived := rfl
    have hmain : r4rScoreDetails (sixGiven ++ [givenTo "u7" (some 0)])
        sixReceived 86400000 =
        mainScoreDetails (sixGiven ++ [givenTo "u7" (some 0)]) sixReceived
          86400000 := by
      unfold r4rScoreDetails
      rw [hfg, hfr, if_neg (by decide)]
    rw [hmain]
    show ageMultOf (sixGiven ++ [givenTo "u7" (some 0)]) sixReceived 86400000 =
      1.4
    unfold ageMultOf
    have hall : ∀ a ∈ (sixGiven ++ [givenTo "u7" (some 0)]) ++ sixReceived,
        a.time = some 0 := by decide
    have hage : accountAgeDaysOf
        ((sixGiven ++ [givenTo "u7" (some 0)]) ++ sixReceived) 86400000 =
        some 1 := by
      unfold accountAgeDaysOf
      rw [if_neg (by decide), earliestTime_all_zero (by decide) hall]
      show some (((86400000 : ℚ) - 0) / 86400000) = some 1
      norm_num
    have hpd : reviewsPerDayOf
        ((sixGiven ++ [givenTo "u7" (some 0)]) ++ sixReceived)
        ((sixGiven ++ [givenTo "u7" (some 0)]).length + sixReceived.length)
        86400000 = some 13 := by
      unfold reviewsPerDayOf
      rw [if_neg (by decide), hage]
      show some ((13 : ℚ) / max 1 1) = some 13
      norm_num
    rw [hage, hpd]
    unfold accountAgeMultiplierOf
    norm_num
  · have hfgb : (sixGiven ++ [givenTo "u7" none]).filter
        (fun r => !r.archived) = sixGiven ++ [givenTo "u7" none] := rfl
    have hfrb : sixReceived.filter (fun r => !r.archived) = sixReceived := rfl
    have hmainb : r4rScoreDetails (sixGiven ++ [givenTo "u7" none]) sixReceived
        86400000 =
        mainScoreDetails (sixGiven ++ [givenTo "u7" none]) sixReceived
          86400000 := by
      unfold r4rScoreDetails
      rw [hfgb, hfrb, if_neg (by decide)]
    rw [hmainb]
    show accountAgeDaysOf ((sixGiven ++ [givenTo "u7" none]) ++ sixReceived)
        86400000 = none
    unfold accountAgeDaysOf
    rw [if_neg (by decide),
      earliestTime_of_invalid (l := (sixGiven ++ [givenTo "u7" none]) ++
        sixReceived) (a := givenTo "u7" none) (by decide) rfl]
    rfl

/-- C8, counterexample.  The scorer reads Date.now(): invoking it on
byte-identical given/received sequences at two different instants (1 day and
100 days after the reviews) yields final scores 100 and 80, so the result is
not a function of the two input sequences alone. -/
theorem scorer_clock_counterexample :
    (r4rScoreDetails sixGiven sixReceived 86400000).finalScore = 100 ∧
      (r4rScoreDetails sixGiven sixReceived 8640000000).finalScore = 80 := by
  have hfg : sixGiven.filter (fun r => !r.archived) = sixGiven := rfl
  have hfr : sixReceived.filter (fun r => !r.archived) = sixReceived := rfl
  have hrc : reciprocalCount sixGiven sixReceived = 6 := by decide
  have hzg : ∀ a ∈ sixGiven, a.time = some 0 := by decide
  have hzr : ∀ a ∈ sixReceived, a.time = some 0 := by decide
  have hq : quickCount sixGiven sixReceived = 6 := by
    rw [quickCount_eq_reciprocalCount_of_times_zero _ _ hzg hzr, hrc]
  have hall : ∀ a ∈ sixGiven ++ sixReceived, a.time = some 0 := by decide
  have hbase : baseScoreOf (reciprocalCount sixGiven sixReceived)
      sixReceived.length = 65 := by
    rw [hrc, show sixReceived.length = 6 from rfl]
    unfold baseScoreOf
    norm_num
  have hvol : volumeMultiplierOf (reciprocalCount sixGiven sixReceived) = 1 := by
    rw [hrc]
    unfold volumeMultiplierOf
    norm_num
  have hfrac : suspiciousFracOf (quickCount sixGiven sixReceived)
      (reciprocalCount sixGiven sixReceived) = 1 := by
    rw [hq, hrc]
    unfold suspiciousFracOf
    norm_num
  have hpen : penaltyOf sixGiven sixReceived = 15 := by
    unfold penaltyOf
    rw [hfrac, hq]
    unfold timePenaltyOf
    norm_num
  constructor
  · have hmain : r4rScoreDetails sixGiven sixReceived 86400000 =
        mainScoreDetails sixGiven sixReceived 86400000 := by
      unfold r4rScoreDetails
      rw [hfg, hfr, if_neg (by decide)]
    have hage : accountAgeDaysOf (sixGiven ++ sixReceived) 86400000 =
        some 1 := by
      unfold accountAgeDaysOf
      rw [if_neg (by decide), earliestTime_all_zero (by decide) hall]
      show some (((86400000 : ℚ) - 0) / 86400000) = some 1
      norm_num
    have hpd : reviewsPerDayOf (sixGiven ++ sixReceived)
        (sixGiven.length + sixReceived.length) 86400000 = some 12 := by
      unfold reviewsPerDayOf
      rw [if_neg (by decide), hage]
      show some ((12 : ℚ) / max 1 1) = some 12
      norm_num
    have hmult : ageMultOf sixGiven sixReceived 86400000 = 1.4 := by
      unfold ageMultOf
      rw [hage, hpd]
      unfold accountAgeMultiplierOf
      norm_num
    have hadj : adjustedScoreOf sixGiven sixReceived 86400000 = 106 := by
      unfold adjustedScoreOf
      rw [hbase, hvol, hmult, hpen]
      norm_num
    rw [hmain]
    show min (jsRound (adjustedScoreOf sixGiven sixReceived 86400000)) 100 = 100
    rw [hadj]
    unfold jsRound
    norm_num
  · have hmain : r4rScoreDetails sixGiven sixReceived 8640000000 =
        mainScoreDetails sixGiven sixReceived 8640000000 := by
      unfold r4rScoreDetails
      rw [hfg, hfr, if_neg (by decide)]
    have hage : accountAgeDaysOf (sixGiven ++ sixReceived) 8640000000 =
        some 100 := by
      unfold accountAgeDaysOf
      rw [if_neg (by decide), earliestTime_all_zero (by decide) hall]
      show some (((8640000000 : ℚ) - 0) / 86400000) = some 100
      norm_num
    have hpd : reviewsPerDayOf (sixGiven ++ sixReceived)
        (sixGiven.length + sixReceived.length) 8640000000 = some (3 / 25) := by
      unfold reviewsPerDayOf
      rw [if_neg (by decide), hage]
      show some ((12 : ℚ) / max 100 1) = some (3 / 25)
      norm_num
    have hmult : ageMultOf sixGiven sixReceived 8640000000 = 1 := by
      unfold ageMultOf
      rw [hage, hpd]
      unfold accountAgeMultiplierOf
      norm_num
    have hadj : adjustedScoreOf sixGiven sixReceived 8640000000 = 80 := by
      unfold adjustedScoreOf
      rw [hbase, hvol, hmult, hpen]
      norm_num
    rw [hmain]
    show min (jsRound (adjustedScoreOf sixGiven sixReceived 8640000000)) 100 = 80
    rw [hadj]
    unfold jsRound
    norm_num

/-- C8, amended.  The scorer and the pairer are pure: for identical input
sequences *and an identical clock reading*, two invocations agree on the
whole breakdown, the pair list and the risk level. -/
theorem scorer_deterministic_given_clock
    (g1 r1 g2 r2 : List EthosActivity) (n1 n2 : ℚ)
    (hg : g1 = g2) (hr : r1 = r2) (hn : n1 = n2) :
    r4rScoreDetails g1 r1 n1 = r4rScoreDetails g2 r2 n2 ∧
      reviewPairs g1 r1 = reviewPairs g2 r2 ∧
      riskLevelOf (r4rScoreDetails g1 r1 n1).finalScore =
        riskLevelOf (r4rScoreDetails g2 r2 n2).finalScore := by
  rw [hg, hr, hn]
  exact ⟨rfl, rfl, rfl⟩

/-- Witness for the amended C8 at a concrete input. -/
theorem scorer_deterministic_given_clock_witness :
    r4rScoreDetails sixGiven sixReceived 86400000 =
        r4rScoreDetails sixGiven sixReceived 86400000 ∧
      reviewPairs sixGiven sixReceived = reviewPairs sixGiven sixReceived ∧
      riskLevelOf (r4rScoreDetails sixGiven sixReceived 86400000).finalScore =
        riskLevelOf (r4rScoreDetails sixGiven sixReceived 86400000).finalScore :=
  scorer_deterministic_given_clock sixGiven sixReceived sixGiven sixReceived
    86400000 86400000 rfl rfl rfl

/-! Association-list lemmas for the userMap embedding. -/

theorem lookup_append_single (m : List (String × ReviewPair)) (k : String)
    (v : ReviewPair) (u : String) :
    (m ++ [(k, v)]).lookup u =
      (m.lookup u).orElse (fun _ => if u == k then some v else none) := by
  induction m with
  | nil =>
      show List.lookup u [(k, v)] = _
      rw [List.lookup_cons]
      cases hbe : (u == k) <;> simp [List.lookup, Option.orElse]
  | cons kp rest ih =>
      rcases kp with ⟨k1, v1⟩
      show List.lookup u ((k1, v1) :: (rest ++ [(k, v)])) = _
      rw [List.lookup_cons, List.lookup_cons]
      cases hbe : (u == k1)
      · simpa using ih
      · simp [Option.orElse]

theorem lookup_map_update (m : List (String × ReviewPair)) (k u : String)
    (f : ReviewPair → ReviewPair) :
    (m.map (fun kp => if kp.1 == k then (kp.1, f kp.2) else kp)).lookup u =
      if u == k then (m.lookup u).map f else m.lookup u := by
  induction m with
  | nil => by_cases h : u = k <;> simp [List.lookup, h]
  | cons kp rest ih =>
      rcases kp with ⟨k1, v1⟩
      by_cases h1 : k1 = k
      · subst h1
        by_cases h2 : u = k1
        · subst h2
          simp [List.lookup_cons]
        · have hb2 : (u == k1) = false := beq_eq_false_iff_ne.mpr h2
          simp [List.lookup_cons, hb2] at ih ⊢
          exact ih
      · have hb1 : (k1 == k) = false := beq_eq_false_iff_ne.mpr h1
        by_cases h2 : u = k1
        · subst h2
          simp [List.lookup_cons, hb1, h1]
        · have hb2 : (u == k1) = false := beq_eq_false_iff_ne.mpr h2
          simp [List.lookup_cons, hb1, hb2, h1, h2] at ih ⊢
          exact ih

theorem lookup_none_forall (m : List (String × ReviewPair)) (u : String)
    (h : m.lookup u = none) : ∀ kp ∈ m, kp.1 ≠ u := by
  induction m with
  | nil => intro kp hkp; cases hkp
  | cons kp2 rest ih =>
      intro kp hkp
      rcases kp2 with ⟨k1, v1⟩
      rw [List.lookup_cons] at h
      cases hbe : (u == k1) <;> rw [hbe] at h
      · rcases List.mem_cons.mp hkp with heq | hmem
        · rw [heq]
          exact fun hk => (beq_eq_false_iff_ne.mp hbe) hk.symm
        · exact ih h kp hmem
      · cases h
      
theorem lookup_of_mem_distinct (m : List (String × ReviewPair))
    (h : m.Pairwise (fun a b => a.1 ≠ b.1)) {k : String} {p : ReviewPair}
    (hm : (k, p) ∈ m) : m.lookup k = some p := by
  induction m with
  | nil => cases hm
  | cons kp rest ih =>
      rcases kp with ⟨k1, v1⟩
      rcases List.pairwise_cons.mp h with ⟨hhead, htail⟩
      rcases List.mem_cons.mp hm with heq | hmem
      · have hk : k = k1 := congrArg Prod.fst heq
        have hv : p = v1 := congrArg Prod.snd heq
        rw [List.lookup_cons, beq_iff_eq.mpr hk, hv]
      · have hk1 : k1 ≠ k := by
          have := hhead (k, p) hmem
          simpa using this
        rw [List.lookup_cons, beq_eq_false_iff_ne.mpr (fun hk => hk1 hk.symm)]
        exact ih htail hmem

/-- The effect of one received review on the entry of its author's key:
complete/overwrite an existing entry, else create a received-only entry. -/
def applyReceived (x : Option ReviewPair) (r : EthosActivity) :
    Option ReviewPair :=
  match x with
  | some p => some (updateReceived p r)
  | none => some (mkReceivedPair r)

theorem lookup_foldl_insertGiven :
    ∀ (gs : List EthosActivity) (m : List (String × ReviewPair)) (u : String),
      (List.foldl insertGiven m gs).lookup u =
        (m.lookup u).orElse
          (fun _ =>
            (gs.find? (fun g => g.subjectUsername == u)).map mkGivenPair) := by
  intro gs
  induction gs with
  | nil =>
      intro m u
      cases hx : m.lookup u <;> simp [hx, Option.orElse]
  | cons g rest ih =>
      intro m u
      simp only [List.foldl_cons]
      rw [ih]
      unfold insertGiven
      by_cases hsome : (m.lookup g.subjectUsername).isSome
      · rw [if_pos hsome]
        by_cases hu : g.subjectUsername = u
        · have hfind : (g :: rest).find? (fun g2 => g2.subjectUsername == u) =
              some g :=
            List.find?_cons_of_pos _ (beq_iff_eq.mpr hu)
          rw [hfind]
          rw [hu] at hsome
          rcases Option.isSome_iff_exists.mp hsome with ⟨p, hp⟩
          rw [hp]
          simp [Option.orElse]
        · have hfind : (g :: rest).find? (fun g2 => g2.subjectUsername == u) =
              rest.find? (fun g2 => g2.subjectUsername == u) :=
            List.find?_cons_of_neg _ (by simpa using hu)
          rw [hfind]
      · rw [if_neg hsome]
        have hnone : m.lookup g.subjectUsername = none :=
          Option.not_isSome_iff_eq_none.mp hsome
        rw [lookup_append_single]
        by_cases hu : g.subjectUsername = u
        · have hbe : (u == g.subjectUsername) = true := beq_iff_eq.mpr hu.symm
          have hfind : (g :: rest).find? (fun g2 => g2.subjectUsername == u) =
              some g :=
            List.find?_cons_of_pos _ (beq_iff_eq.mpr hu)
          rw [hfind]
          rw [← hu, hnone]
          simp [Option.orElse, hbe]
        · have hbe : (u == g.subjectUsername) = false :=
            beq_eq_false_iff_ne.mpr (fun hh => hu hh.symm)
          have hfind : (g :: rest).find? (fun g2 => g2.subjectUsername == u) =
              rest.find? (fun g2 => g2.subjectUsername == u) :=
            List.find?_cons_of_neg _ (by simpa using hu)
          rw [hfind]
          cases hx : m.lookup u <;> simp [Option.orElse, hbe]

theorem lookup_foldl_insertReceived :
    ∀ (rs : List EthosActivity) (m : List (String × ReviewPair)) (u : String),
      (List.foldl insertReceived m rs).lookup u =
        List.foldl applyReceived (m.lookup u)
          (rs.filter (fun r => r.authorUsername == u)) := by
  intro rs
  induction rs with
  | nil => intro m u; rfl
  | cons r rest ih =>
      intro m u
      simp only [List.foldl_cons]
      rw [ih]
      by_cases hu : r.authorUsername = u
      · have hbe : (r.authorUsername == u) = true := beq_iff_eq.mpr hu
        rw [List.filter_cons, if_pos hbe, List.foldl_cons]
        have hstep : (insertReceived m r).lookup u =
            applyReceived (m.lookup u) r := by
          unfold insertReceived
          by_cases hsome : (m.lookup r.authorUsername).isSome
          · rw [if_pos hsome]
            rw [lookup_map_update m r.authorUsername u
              (fun p => updateReceived p r)]
            rw [hu] at hsome
            rcases Option.isSome_iff_exists.mp hsome with ⟨p, hp⟩
            have hbu : (u == r.authorUsername) = true := beq_iff_eq.mpr hu.symm
            rw [hbu, if_pos rfl, hp]
            rfl
          · rw [if_neg hsome]
            have hnone : m.lookup r.authorUsername = none :=
              Option.not_isSome_iff_eq_none.mp hsome
            rw [lookup_append_single]
            have hbu : (u == r.authorUsername) = true := beq_iff_eq.mpr hu.symm
            rw [← hu, hnone]
            simp only [Option.orElse]
            rw [if_pos (beq_iff_eq.mpr rfl)]
            rfl
        rw [hstep]
      · have hbe : (r.authorUsername == u) = false := beq_eq_false_iff_ne.mpr hu
        have hbe2 : ¬((r.authorUsername == u) = true) := by
          rw [hbe]
          exact Bool.false_ne_true
        rw [List.filter_cons, if_neg hbe2]
        have hstep : (insertReceived m r).lookup u = m.lookup u := by
          unfold insertReceived
          by_cases hsome : (m.lookup r.authorUsername).isSome
          · rw [if_pos hsome, lookup_map_update m r.authorUsername u
              (fun p => updateReceived p r)]
            have hbu : (u == r.authorUsername) = false :=
              beq_eq_false_iff_ne.mpr (fun hh => hu hh.symm)
            rw [hbu, if_neg (by simp)]
          · rw [if_neg hsome, lookup_append_single]
            have hbu : (u == r.authorUsername) = false :=
              beq_eq_false_iff_ne.mpr (fun hh => hu hh.symm)
            cases hx : m.lookup u <;> simp [Option.orElse, hbu]
        rw [hstep]

theorem foldl_applyReceived_givenReview :
    ∀ (rs : List EthosActivity) (x : Option ReviewPair),
      (List.foldl applyReceived x rs).bind (fun p => p.givenReview) =
        x.bind (fun p => p.givenReview) := by
  intro rs
  induction rs with
  | nil => intro x; rfl
  | cons r rest ih =>
      intro x
      simp only [List.foldl_cons]
      rw [ih]
      cases x <;> rfl

theorem foldl_applyReceived_receivedReview :
    ∀ (rs : List EthosActivity) (x : Option ReviewPair), rs ≠ [] →
      (List.foldl applyReceived x rs).bind (fun p => p.receivedReview) =
        rs.getLast? := by
  intro rs
  induction rs with
  | nil => intro x h; exact absurd rfl h
  | cons r rest ih =>
      intro x _
      cases rest with
      | nil =>
          cases x <;> rfl
      | cons s rest2 =>
          rw [List.getLast?_cons_cons, List.foldl_cons]
          exact ih (applyReceived x r) (by simp)

theorem mem_foldl_insertGiven (Q : String × ReviewPair → Prop)
    (h1 : ∀ g : EthosActivity, Q (g.subjectUsername, mkGivenPair g)) :
    ∀ (gs : List EthosActivity) (m : List (String × ReviewPair)),
      (∀ kp ∈ m, Q kp) → ∀ kp ∈ List.foldl insertGiven m gs, Q kp := by
  intro gs
  induction gs with
  | nil => intro m hm kp hkp; exact hm kp hkp
  | cons g rest ih =>
      intro m hm kp hkp
      simp only [List.foldl_cons] at hkp
      refine ih _ ?_ kp hkp
      intro kp2 hkp2
      unfold insertGiven at hkp2
      split at hkp2
      · exact hm kp2 hkp2
      · rcases List.mem_append.mp hkp2 with h | h
        · exact hm kp2 h
        · have := List.eq_of_mem_singleton h
          rw [this]
          exact h1 g

theorem mem_foldl_insertReceived (Q : String × ReviewPair → Prop)
    (h2 : ∀ r : EthosActivity, Q (r.authorUsername, mkReceivedPair r))
    (h3 : ∀ (k : String) (p : ReviewPair) (r : EthosActivity),
      Q (k, p) → Q (k, updateReceived p r)) :
    ∀ (rs : List EthosActivity) (m : List (String × ReviewPair)),
      (∀ kp ∈ m, Q kp) → ∀ kp ∈ List.foldl insertReceived m rs, Q kp := by
  intro rs
  induction rs with
  | nil => intro m hm kp hkp; exact hm kp hkp
  | cons r rest ih =>
      intro m hm kp hkp
      simp only [List.foldl_cons] at hkp
      refine ih _ ?_ kp hkp
      intro kp2 hkp2
      unfold insertReceived at hkp2
      split at hkp2
      · rcases List.mem_map.mp hkp2 with ⟨kp3, hkp3, heq⟩
        by_cases hk : kp3.1 = r.authorUsername
        · have hbe : (kp3.1 == r.authorUsername) = true := beq_iff_eq.mpr hk
          rw [if_pos hbe] at heq
          rw [← heq]
          exact h3 kp3.1 kp3.2 r (hm kp3 hkp3)
        · have hbe : (kp3.1 == r.authorUsername) = false :=
            beq_eq_false_iff_ne.mpr hk
          rw [hbe] at heq
          simp only [Bool.false_eq_true, if_false] at heq
          rw [← heq]
          exact hm kp3 hkp3
      · rcases List.mem_append.mp hkp2 with h | h
        · exact hm kp2 h
        · have := List.eq_of_mem_singleton h
          rw [this]
          exact h2 r

theorem pairMap_invariant (Q : String × ReviewPair → Prop)
    (h1 : ∀ g : EthosActivity, Q (g.subjectUsername, mkGivenPair g))
    (h2 : ∀ r : EthosActivity, Q (r.authorUsername, mkReceivedPair r))
    (h3 : ∀ (k : String) (p : ReviewPair) (r : EthosActivity),
      Q (k, p) → Q (k, updateReceived p r)) :
    ∀ (givenAll receivedAll : List EthosActivity),
      ∀ kp ∈ pairMap givenAll receivedAll, Q kp := by
  intro givenAll receivedAll kp hkp
  unfold pairMap at hkp
  refine mem_foldl_insertReceived Q h2 h3 _ _
    (mem_foldl_insertGiven Q h1 _ [] (fun kp2 hkp2 => absurd hkp2 (by simp)))
    kp hkp

/-- Every key in the userMap is its pair's username. -/
theorem pairMap_key_eq_username (givenAll receivedAll : List EthosActivity) :
    ∀ kp ∈ pairMap givenAll receivedAll, kp.1 = kp.2.username := by
  refine pairMap_invariant (fun kp => kp.1 = kp.2.username) ?_ ?_ ?_ _ _
  · intro g; rfl
  · intro r; rfl
  · intro k p r h; exact h

theorem distinct_foldl_insertGiven :
    ∀ (gs : List EthosActivity) (m : List (String × ReviewPair)),
      m.Pairwise (fun a b => a.1 ≠ b.1) →
      (List.foldl insertGiven m gs).Pairwise (fun a b => a.1 ≠ b.1) := by
  intro gs
  induction gs with
  | nil => intro m hm; exact hm
  | cons g rest ih =>
      intro m hm
      simp only [List.foldl_cons]
      refine ih _ ?_
      unfold insertGiven
      split
      · exact hm
      · rename_i hsome
        have hnone : m.lookup g.subjectUsername = none :=
          Option.not_isSome_iff_eq_none.mp hsome
        refine List.pairwise_append.mpr ⟨hm, List.pairwise_singleton _ _, ?_⟩
        intro a ha b hb
        have hb2 := List.eq_of_mem_singleton hb
        rw [hb2]
        exact lookup_none_forall m _ hnone a ha

theorem distinct_foldl_insertReceived :
    ∀ (rs : List EthosActivity) (m : List (String × ReviewPair)),
      m.Pairwise (fun a b => a.1 ≠ b.1) →
      (List.foldl insertReceived m rs).Pairwise (fun a b => a.1 ≠ b.1) := by
  intro rs
  induction rs with
  | nil => intro m hm; exact hm
  | cons r rest ih =>
      intro m hm
      simp only [List.foldl_cons]
      refine ih _ ?_
      unfold insertReceived
      split
      · refine List.Pairwise.map _ ?_ hm
        intro a b hab
        have ha : (if a.1 == r.authorUsername then
            (a.1, updateReceived a.2 r) else a).1 = a.1 := by
          split <;> rfl
        have hb : (if b.1 == r.authorUsername then
            (b.1, updateReceived b.2 r) else b).1 = b.1 := by
          split <;> rfl
        rw [ha, hb]
        exact hab
      · rename_i hsome
        have hnone : m.lookup r.authorUsername = none :=
          Option.not_isSome_iff_eq_none.mp hsome
        refine List.pairwise_append.mpr ⟨hm, List.pairwise_singleton _ _, ?_⟩
        intro a ha b hb
        have hb2 := List.eq_of_mem_singleton hb
        rw [hb2]
        exact lookup_none_forall m _ hnone a ha

/-- No two entries of the userMap share a key. -/
theorem distinct_pairMap (givenAll receivedAll : List EthosActivity) :
    (pairMap givenAll receivedAll).Pairwise (fun a b => a.1 ≠ b.1) := by
  unfold pairMap
  exact distinct_foldl_insertReceived _ _
    (distinct_foldl_insertGiven _ [] List.Pairwise.nil)

/-- The entry of key u after both passes: the first non-archived given
review whose subject is u seeds the entry, then every non-archived received
review authored by u is applied in order. -/
theorem pairMap_lookup (givenAll receivedAll : List EthosActivity)
    (u : String) :
    (pairMap givenAll receivedAll).lookup u =
      List.foldl applyReceived
        (((givenAll.filter (fun r => !r.archived)).find?
            (fun g => g.subjectUsername == u)).map mkGivenPair)
        ((receivedAll.filter (fun r => !r.archived)).filter
          (fun r => r.authorUsername == u)) := by
  unfold pairMap
  rw [lookup_foldl_insertReceived, lookup_foldl_insertGiven]
  rfl

theorem mem_reviewPairs_iff (givenAll receivedAll : List EthosActivity)
    (p : ReviewPair) :
    p ∈ reviewPairs givenAll receivedAll ↔
      p ∈ (pairMap givenAll receivedAll).map Prod.snd := by
  unfold reviewPairs
  exact (List.mergeSort_perm _ pairLe).mem_iff

/-- C6, amended.  For every input: no two pairs share a counterpart
username; each pair's givenReview is the *first* non-archived given review
for its counterpart; and each pair's receivedReview is the *last*
non-archived received review authored by its counterpart (every later
duplicate overwrites the earlier one), not the first. -/
theorem pairer_unique_and_retention
    (givenAll receivedAll : List EthosActivity) :
    List.Pairwise (fun a b => a.username ≠ b.username)
        (reviewPairs givenAll receivedAll) ∧
      ∀ p ∈ reviewPairs givenAll receivedAll,
        p.givenReview = (givenAll.filter (fun r => !r.archived)).find?
            (fun g => g.subjectUsername == p.username) ∧
          p.receivedReview = ((receivedAll.filter (fun r => !r.archived)).filter
              (fun r => r.authorUsername == p.username)).getLast? := by
  constructor
  · have hdis := distinct_pairMap givenAll receivedAll
    have hkey := pairMap_key_eq_username givenAll receivedAll
    have hpair : (pairMap givenAll receivedAll).Pairwise
        (fun a b => a.2.username ≠ b.2.username) := by
      refine hdis.imp_of_mem ?_
      intro a b ha hb hne
      rw [← hkey a ha, ← hkey b hb]
      exact hne
    have hmap : ((pairMap givenAll receivedAll).map Prod.snd).Pairwise
        (fun a b => a.username ≠ b.username) :=
      List.pairwise_map.mpr hpair
    unfold reviewPairs
    exact ((List.mergeSort_perm _ pairLe).pairwise_iff
      (fun h => Ne.symm h)).mpr hmap
  · intro p hp
    have hp2 : p ∈ (pairMap givenAll receivedAll).map Prod.snd :=
      (mem_reviewPairs_iff _ _ _).mp hp
    rcases List.mem_map.mp hp2 with ⟨kp, hkp, hsnd⟩
    have hkey : kp.1 = p.username := by
      rw [pairMap_key_eq_username givenAll receivedAll kp hkp, hsnd]
    have hmem : (p.username, p) ∈ pairMap givenAll receivedAll := by
      have : kp = (p.username, p) := by
        rcases kp with ⟨k1, p1⟩
        rw [Prod.mk.injEq]
        exact ⟨hkey, hsnd⟩
      rw [← this]
      exact hkp
    have hlook : (pairMap givenAll receivedAll).lookup p.username = some p :=
      lookup_of_mem_distinct _ (distinct_pairMap _ _) hmem
    rw [pairMap_lookup] at hlook
    constructor
    · have h1 := foldl_applyReceived_givenReview
        ((receivedAll.filter (fun r => !r.archived)).filter
          (fun r => r.authorUsername == p.username))
        (((givenAll.filter (fun r => !r.archived)).find?
          (fun g => g.subjectUsername == p.username)).map mkGivenPair)
      rw [hlook] at h1
      cases hfind : (givenAll.filter (fun r => !r.archived)).find?
          (fun g => g.subjectUsername == p.username) with
      | none =>
          rw [hfind] at h1
          exact h1
      | some g =>
          rw [hfind] at h1
          exact h1
    · cases hrs : (receivedAll.filter (fun r => !r.archived)).filter
          (fun r => r.authorUsername == p.username) with
      | nil =>
          rw [hrs] at hlook
          cases hfind : (givenAll.filter (fun r => !r.archived)).find?
              (fun g => g.subjectUsername == p.username) with
          | none =>
              rw [hfind] at hlook
              cases hlook
          | some g =>
              rw [hfind] at hlook
              have : mkGivenPair g = p := Option.some.inj hlook
              rw [← this]
              rfl
      | cons r0 rest0 =>
          have hne : (receivedAll.filter (fun r => !r.archived)).filter
              (fun r => r.authorUsername == p.username) ≠ [] := by
            rw [hrs]
            simp
          have h2 := foldl_applyReceived_receivedReview
            ((receivedAll.filter (fun r => !r.archived)).filter
              (fun r => r.authorUsername == p.username))
            (((givenAll.filter (fun r => !r.archived)).find?
              (fun g => g.subjectUsername == p.username)).map mkGivenPair) hne
          rw [hlook] at h2
          rw [hrs] at h2
          exact h2

/-- A given review and two received reviews from the same counterpart,
distinguishable by their content rating. -/
def dupGiven : EthosActivity := givenTo "cp" none

/-- First received duplicate. -/
def dupR1 : EthosActivity := receivedFrom "cp" none

/-- Second received duplicate (differs from the first). -/
def dupR2 : EthosActivity :=
  { receivedFrom "cp" none with contentRating := some Rating.neutral }

/-- The single pair the pairer produces for dupGiven/[dupR1, dupR2]. -/
def dupPair : ReviewPair :=
  updateReceived (updateReceived (mkGivenPair dupGiven) dupR1) dupR2

/-- C6, counterexample.  With two received records from the same
counterpart, the pair retains the *second* one: each later duplicate
overwrites the entry, so the first-encountered match is not the one
retained, contrary to the claim. -/
theorem received_duplicate_last_retained :
    dupR1 ≠ dupR2 ∧
      reviewPairs [dupGiven] [dupR1, dupR2] = [dupPair] ∧
      dupPair.receivedReview = some dupR2 := by
  refine ⟨by decide, ?_, by decide⟩
  have hpm : (pairMap [dupGiven] [dupR1, dupR2]).map Prod.snd = [dupPair] := by
    decide
  unfold reviewPairs
  rw [hpm]
  exact List.perm_singleton.mp (List.mergeSort_perm [dupPair] pairLe)

/-- Witness for the amended C6 at the duplicate-received input. -/
theorem pairer_unique_and_retention_witness :
    dupPair.givenReview = ([dupGiven].filter (fun r => !r.archived)).find?
        (fun g => g.subjectUsername == dupPair.username) ∧
      dupPair.receivedReview =
        (([dupR1, dupR2].filter (fun r => !r.archived)).filter
          (fun r => r.authorUsername == dupPair.username)).getLast? :=
  (pairer_unique_and_retention [dupGiven] [dupR1, dupR2]).2 dupPair
    (by
      rw [mem_reviewPairs_iff]
      decide)

theorem pairMap_isReciprocal_inv (givenAll receivedAll : List EthosActivity) :
    ∀ kp ∈ pairMap givenAll receivedAll,
      (kp.2.isReciprocal = true ↔
        (∃ gv, kp.2.givenReview = some gv ∧
          ratingOf gv = some Rating.positive) ∧
        (∃ rv, kp.2.receivedReview = some rv ∧
          ratingOf rv = some Rating.positive)) := by
  refine pairMap_invariant _ ?_ ?_ ?_ _ _
  · intro g
    simp [mkGivenPair]
  · intro r
    simp [mkReceivedPair]
  · intro k p r _
    show (updateReceived p r).isReciprocal = true ↔ _
    unfold updateReceived
    simp only [Bool.and_eq_true, beq_iff_eq, Option.bind_eq_some]
    constructor
    · rintro ⟨⟨gv, hgv, hgpos⟩, hrpos⟩
      exact ⟨⟨gv, hgv, hgpos⟩, ⟨r, rfl, hrpos⟩⟩
    · rintro ⟨⟨gv, hgv, hgpos⟩, ⟨rv, hrv, hrpos⟩⟩
      have : rv = r := (Option.some.inj hrv).symm
      rw [this] at hrpos
      exact ⟨⟨gv, hgv, hgpos⟩, hrpos⟩

/-- The given review and received review of Scenario E, both NEGATIVE. -/
def negGiven : EthosActivity :=
  { givenTo "cp" none with dataScore := some Rating.negative }

/-- Scenario E received review, NEGATIVE. -/
def negReceived : EthosActivity :=
  { receivedFrom "cp" none with dataScore := some Rating.negative }

/-- The single pair the pairer produces for Scenario E. -/
def negPair : ReviewPair := updateReceived (mkGivenPair negGiven) negReceived

/-- C3.  A ReviewPair is reciprocal iff it has both records and both
effective ratings are POSITIVE; any matched given review without two
positive ratings is excluded from the reciprocal count and from the
quick-reciprocation tally feeding the time penalty, as is any unmatched
one; and a NEGATIVE/NEGATIVE pair still exists in the output with
isReciprocal = false and contributes to neither count. -/
theorem reciprocity_requires_two_positives :
    (∀ (givenAll receivedAll : List EthosActivity) (p : ReviewPair),
        p ∈ reviewPairs givenAll receivedAll →
          (p.isReciprocal = true ↔
            (∃ gv, p.givenReview = some gv ∧
              ratingOf gv = some Rating.positive) ∧
            (∃ rv, p.receivedReview = some rv ∧
              ratingOf rv = some Rating.positive))) ∧
      (∀ (g m : EthosActivity) (received : List EthosActivity),
          findMatch g received = some m →
          ¬(ratingOf g = some Rating.positive ∧
            ratingOf m = some Rating.positive) →
          isReciprocalMatch g received = false ∧
            isQuickMatch g received = false) ∧
      (∀ (g : EthosActivity) (received : List EthosActivity),
          findMatch g received = none →
          isReciprocalMatch g received = false ∧
            isQuickMatch g received = false) ∧
      reviewPairs [negGiven] [negReceived] = [negPair] ∧
      negPair.isReciprocal = false ∧
      negPair.givenReview = some negGiven ∧
      negPair.receivedReview = some negReceived ∧
      reciprocalCount [negGiven] [negReceived] = 0 ∧
      quickCount [negGiven] [negReceived] = 0 := by
  refine ⟨?_, ?_, ?_, ?_, by decide, by decide, by decide, by decide, by decide⟩
  · intro givenAll receivedAll p hp
    have hp2 : p ∈ (pairMap givenAll receivedAll).map Prod.snd :=
      (mem_reviewPairs_iff _ _ _).mp hp
    rcases List.mem_map.mp hp2 with ⟨kp, hkp, hsnd⟩
    have := pairMap_isReciprocal_inv givenAll receivedAll kp hkp
    rw [hsnd] at this
    exact this
  · intro g m received hf hneg
    have hfalse : (ratingOf g == some Rating.positive &&
        ratingOf m == some Rating.positive) = false := by
      rcases not_and_or.mp hneg with h | h
      · rw [beq_eq_false_iff_ne.mpr h, Bool.false_and]
      · rw [beq_eq_false_iff_ne.mpr h, Bool.and_false]
    constructor
    · unfold isReciprocalMatch
      rw [hf]
      exact hfalse
    · unfold isQuickMatch
      rw [hf]
      dsimp only
      rw [hfalse, Bool.false_and]
  · intro g received hf
    constructor
    · unfold isReciprocalMatch
      rw [hf]
    · unfold isQuickMatch
      rw [hf]
  · have hpm : (pairMap [negGiven] [negReceived]).map Prod.snd = [negPair] := by
      decide
    unfold reviewPairs
    rw [hpm]
    exact List.perm_singleton.mp (List.mergeSort_perm [negPair] pairLe)

/-- Witness for C3 at the Scenario E input. -/
theorem reciprocity_requires_two_positives_witness :
    (negPair.isReciprocal = true ↔
        (∃ gv, negPair.givenReview = some gv ∧
          ratingOf gv = some Rating.positive) ∧
        (∃ rv, negPair.receivedReview = some rv ∧
          ratingOf rv = some Rating.positive)) ∧
      (isReciprocalMatch negGiven [negReceived] = false ∧
        isQuickMatch negGiven [negReceived] = false) :=
  ⟨reciprocity_requires_two_positives.1 [negGiven] [negReceived] negPair
      (by
        rw [mem_reviewPairs_iff]
        decide),
    reciprocity_requires_two_positives.2.1 negGiven negReceived [negReceived]
      (by decide) (by decide)⟩
